import Mathlib

/-!
Shallow embedding of the extraction engine of the ProjetIndustriel repository.

The repository holds two alternate implementations of the same scraping
engine:
  * `src/scraper.js` — the JavaScript variant (records with nullable fields,
    an empty-text filter on fragments, a stop flag polled before each item);
  * `src/unnamed/part_000` — the TypeScript variant (string-sentinel records,
    an ancestor check plus a containment check, items omitted on failure).

DOM access is abstracted away exactly as the code uses it: an item is
modelled by the data its queries return (counts of matching descendants,
optional text of a matched sub-element, the ordered list of texts of the
matched detail / description elements), plus one flag per extraction step
recording whether that step throws.  Machine-level string operations
(`String.prototype.split`, `String.prototype.trim`) are embedded as
executable Lean functions over `List Char` so that every definition
evaluates inside the kernel.
-/

/-! ### JavaScript string primitives -/

/-- Drop leading whitespace characters, as `String.prototype.trim` does on
the left end. -/
def trimLeftL : List Char → List Char
  | [] => []
  | c :: cs => if c.isWhitespace then trimLeftL cs else c :: cs

/-- Embedding of JavaScript `s.trim()`: whitespace removed from both ends. -/
def jsTrim (s : String) : String :=
  ⟨(trimLeftL (trimLeftL s.data).reverse).reverse⟩

/-- If `l` starts with `pre`, return the remainder of `l` after it. -/
def dropPrefixL : List Char → List Char → Option (List Char)
  | [], l => some l
  | _ :: _, [] => none
  | p :: ps, c :: cs => if c = p then dropPrefixL ps cs else none

/-- Worker for `jsSplit`.  `fuel` only forces structural termination; the
callers always supply `fuel` equal to the length of the scanned list, which
is enough for the fuel never to run out when the separator is non-empty.
`acc` is the current fragment, reversed. -/
def jsSplitGo (sep : List Char) : Nat → List Char → List Char → List (List Char)
  | _, [], acc => [acc.reverse]
  | 0, l, acc => [acc.reverse ++ l]
  | fuel + 1, c :: cs, acc =>
    match dropPrefixL sep (c :: cs) with
    | some rest => acc.reverse :: jsSplitGo sep fuel rest []
    | none => jsSplitGo sep fuel cs (c :: acc)

/-- Embedding of JavaScript `s.split(sep)` for a non-empty string separator
(the source only ever splits on `" · "`).  Scans left to right, consuming
non-overlapping occurrences of the separator; `"".split(sep)` is `[""]` and
a string without the separator is returned whole. -/
def jsSplit (sep : String) (s : String) : List String :=
  (jsSplitGo sep.data s.data.length s.data []).map (fun l => ⟨l⟩)

/-- Join a list of strings with a separator (used only to phrase what the
spec's words ask of the organization split). -/
def joinSep (sep : String) : List String → String
  | [] => ""
  | [a] => a
  | a :: b :: rest => a ++ sep ++ joinSep sep (b :: rest)

/-! ### Field decomposers, `scraper.js` variant

`scraper.js` lines 103–108 and 143–148 evaluate the trimmed text of every
matched sub-element and keep only the truthy (non-empty) ones; the
decomposition at lines 112–133 and 152–166 then works on the filtered
list. -/

/-- Lines 103–108 / 143–148 of `scraper.js`: trimmed texts of the matched
elements, the empty ones dropped (`if (text) … push(text)`). -/
def filterTexts (raw : List String) : List String :=
  (raw.map jsTrim).filter (fun t => t ≠ "")

/-- Lines 113–121 of `scraper.js`: `companyInfo.split(' · ')`; with at least
two parts, company is `parts[0].trim()` and position `parts[1].trim()`;
otherwise company is the whole string and position stays null. -/
def decomposeCompanyJS (companyInfo : String) : String × Option String :=
  let parts := jsSplit " · " companyInfo
  if 2 ≤ parts.length then
    (jsTrim (parts.getD 0 ""), some (jsTrim (parts.getD 1 "")))
  else
    (companyInfo, none)

/-- The four detail fields of an experience record in `scraper.js`. -/
structure DetailsJS where
  company : Option String
  position : Option String
  duration : Option String
  location : Option String
  deriving DecidableEq, Repr

/-- Lines 112–133 of `scraper.js`: `detailsText[0]` is decomposed into
company/position, `detailsText[1]` (when present) is the duration,
`detailsText[2]` (when present) the location; later entries are unused. -/
def decomposeDetailsJS : List String → DetailsJS
  | [] => ⟨none, none, none, none⟩
  | a :: rest =>
    let cp := decomposeCompanyJS a
    ⟨some cp.1, cp.2, rest.get? 0, rest.get? 1⟩

/-- Lines 152–166 of `scraper.js`: zero fragments give two nulls, a single
fragment is taken as the skills, and with two or more the first fragment is
the description and the last one (`skillDescText[skillDescText.length - 1]`)
the skills. -/
def decomposeDescSkillsJS : List String → Option String × Option String
  | [] => (none, none)
  | [a] => (none, some a)
  | a :: b :: rest => (some a, some ((a :: b :: rest).getLastD ""))

/-! ### Item pipeline, `scraper.js` variant -/

/-- One matched experience node of `scraper.js`, abstracted to the data its
DOM queries return.  A `…Throws` flag records that the corresponding
extraction step (query or text evaluation) throws; `sameTypeDescendants` is
the length of `item.$$(selectors.experienceItem)`; the text lists hold the
raw `textContent` of the matched sub-elements in document order. -/
structure ItemJS where
  childQueryThrows : Bool
  sameTypeDescendants : Nat
  roleQueryThrows : Bool
  roleElem : Option String
  detailQueryThrows : Bool
  detailTexts : List String
  skillQueryThrows : Bool
  skillDescTexts : List String
  deriving DecidableEq, Repr

/-- The record pushed by `scrapeExperience` in `scraper.js`
(lines 65–75). -/
structure ExperienceData where
  index : Nat
  role : Option String
  company : Option String
  position : Option String
  duration : Option String
  location : Option String
  description : Option String
  skills : Option String
  has_children : Bool
  deriving DecidableEq, Repr

/-- The record as first initialized at lines 65–75 of `scraper.js`: the
ordinal index, every extractable field null, `has_children` false. -/
def initExperience (idx : Nat) : ExperienceData :=
  ⟨idx, none, none, none, none, none, none, none, false⟩

/-- Lines 86–96 of `scraper.js`: the role is assigned only when the role
element is found and its text evaluates without throwing; any throw is
caught by the step's own `catch` and leaves the field untouched. -/
def roleStep (it : ItemJS) (r : ExperienceData) : ExperienceData :=
  if it.roleQueryThrows then r
  else match it.roleElem with
       | some t => { r with role := some (jsTrim t) }
       | none => r

/-- Lines 98–136 of `scraper.js`: the filtered detail texts are decomposed
positionally; a throw anywhere in the step leaves all four fields
untouched. -/
def detailsStep (it : ItemJS) (r : ExperienceData) : ExperienceData :=
  if it.detailQueryThrows then r
  else
    let d := decomposeDetailsJS (filterTexts it.detailTexts)
    { r with company := d.company, position := d.position,
             duration := d.duration, location := d.location }

/-- Lines 138–169 of `scraper.js`: the filtered description/skills texts are
decomposed positionally; a throw leaves both fields untouched. -/
def skillsStep (it : ItemJS) (r : ExperienceData) : ExperienceData :=
  if it.skillQueryThrows then r
  else
    let ds := decomposeDescSkillsJS (filterTexts it.skillDescTexts)
    { r with description := ds.1, skills := ds.2 }

/-- Loop body of `scrapeExperience` in `scraper.js` (lines 64–175) for the
item at position `idx`.  `none` models `continue` (the item is skipped and
nothing is pushed); `some r` models `experiences.push(r)`.  A throw of the
containment query itself reaches the outer per-item `catch`, which pushes
the record as it stands (still the all-null initial one). -/
def processItem (idx : Nat) (it : ItemJS) : Option ExperienceData :=
  let base := initExperience idx
  if it.childQueryThrows then some base
  else if 1 < it.sameTypeDescendants then none
  else some (skillsStep it (detailsStep it (roleStep it base)))

/-- The item loop of `scrapeExperience` (lines 58–176): before each item the
stop flag is read (`stop idx` is its value at that check) and the loop
breaks when it is set; otherwise the item is processed and its record, if
any, appended in order. -/
def scrapeAuxJS (stop : Nat → Bool) : Nat → List ItemJS → List ExperienceData
  | _, [] => []
  | idx, it :: rest =>
    if stop idx then []
    else
      match processItem idx it with
      | none => scrapeAuxJS stop (idx + 1) rest
      | some r => r :: scrapeAuxJS stop (idx + 1) rest

/-- `scrapeExperience` of `scraper.js`, starting the enumeration at index
0. -/
def scrapeExperienceJS (stop : Nat → Bool) (items : List ItemJS) : List ExperienceData :=
  scrapeAuxJS stop 0 items

/-- A run during which the stop flag is never set. -/
def noStop : Nat → Bool := fun _ => false

/-! ### Target boundary, `scraper.js` variant -/

/-- Input of one `scrapeExperience` call as seen through its possible
failures.  The only statement of `scrapeExperience` outside its own
`try`/`catch` is `const selectors = config.selectors` (line 50), which
throws exactly when the configuration value is null or undefined
(`configNull`); every other failure is caught inside.  `topQueryThrows`
models the enumeration query `page.$$(...)` at line 55 throwing, which the
section-level `catch` (lines 177–179) turns into an empty, successful
result. -/
structure ProfileInput where
  configNull : Bool
  topQueryThrows : Bool
  stop : Nat → Bool
  items : List ItemJS

/-- `scrapeExperience` with its escape behaviour: it throws (only) on a null
configuration, before any item is enumerated, and otherwise returns its
record list normally. -/
def scrapeExperienceE (inp : ProfileInput) : Except String (List ExperienceData) :=
  if inp.configNull then
    .error "TypeError: Cannot read properties of null (reading selectors)"
  else if inp.topQueryThrows then .ok []
  else .ok (scrapeExperienceJS inp.stop inp.items)

/-- The per-target outcome built by `scrapeProfile` (lines 233–254). -/
structure ProfileResult where
  url : String
  success : Bool
  experiences : List ExperienceData
  total_experiences : Nat
  error : Option String
  deriving DecidableEq, Repr

/-- `scrapeProfile` of `scraper.js`: the section extraction is run under a
`try`/`catch` at the target boundary; on success the records and their count
are reported with a null error, on a caught failure the target is marked
unsuccessful with the thrown message and an empty record list. -/
def scrapeProfile (url : String) (inp : ProfileInput) : ProfileResult :=
  match scrapeExperienceE inp with
  | .ok exps => ⟨url, true, exps, exps.length, none⟩
  | .error m => ⟨url, false, [], 0, some m⟩

/-! ### Field decomposers and pipeline, `part_000` variant -/

/-- The three detail fields extracted by the `part_000` variant
(lines 175–192). -/
structure DetailsP0 where
  companyAndType : String
  dates : String
  location : String
  deriving DecidableEq, Repr

/-- Lines 179–192 of `part_000`: the three detail fields are filled (from
the trimmed texts of the first three matched elements) only when at least
three elements matched; otherwise all three stay empty. -/
def decomposeDetailsP0 (texts : List String) : DetailsP0 :=
  match texts with
  | a :: b :: c :: _ => ⟨jsTrim a, jsTrim b, jsTrim c⟩
  | _ => ⟨"", "", ""⟩

/-- Lines 201–225 of `part_000`: with no matched element both fields hold
the literal sentinel `"null"`; a single element is taken as the skills; with
two or more, the first element is the description and the second
(`descriptionElements[1]`) the skills. -/
def decomposeDescSkillsP0 (texts : List String) : String × String :=
  match texts with
  | [] => ("null", "null")
  | [a] => ("null", jsTrim a)
  | a :: b :: _ => (jsTrim a, jsTrim b)

/-- One matched experience node of the `part_000` variant.  `isChild` is the
result of `isChildElement` (some ancestor matches the item selector);
`sameTypeDescendants` the length of `element.$$(selector)` inside
`hasChildrenOfSameType`; the throw flags mark the steps guarded by the
per-item `try`.  The two resolver checks themselves run *outside* that
`try` (lines 124–148): this structure describes their results when they
return; a throw of a resolver check escapes the section and is modelled by
the flags of `ItemP0E` below. -/
structure ItemP0 where
  isChild : Bool
  sameTypeDescendants : Nat
  titleThrows : Bool
  jobTitleElem : Option String
  detailsThrows : Bool
  detailTexts : List String
  descThrows : Bool
  descTexts : List String
  deriving DecidableEq, Repr

/-- The record pushed by `scrapeExperience` in `part_000`
(lines 227–235). -/
structure ExperienceP0 where
  profil : String
  titrePoste : String
  entrepriseEtType : String
  datesEtDuree : String
  lieu : String
  description : String
  competences : String
  deriving DecidableEq, Repr

/-- Loop body of `scrapeExperience` in `part_000` (lines 124–244): an item
that is a child of another match, or that contains at least one match, is
skipped; any throw inside the per-item `try` omits the item entirely
(nothing is pushed, the loop continues). -/
def processItemP0 (url : String) (it : ItemP0) : Option ExperienceP0 :=
  if it.isChild then none
  else if 0 < it.sameTypeDescendants then none
  else if it.titleThrows then none
  else
    let jobTitle := match it.jobTitleElem with
                    | some t => jsTrim t
                    | none => ""
    if it.detailsThrows then none
    else
      let d := decomposeDetailsP0 it.detailTexts
      if it.descThrows then none
      else
        let ds := decomposeDescSkillsP0 it.descTexts
        some ⟨url, jobTitle, d.companyAndType, d.dates, d.location, ds.1, ds.2⟩

/-- The item loop of `scrapeExperience` in `part_000` for runs in which
neither unguarded resolver check throws (the general loop, with those error
paths, is `scrapeP0E` below): no stop flag is read; surviving records are
appended in enumeration order. -/
def scrapeP0 (url : String) : List ItemP0 → List ExperienceP0
  | [] => []
  | it :: rest =>
    match processItemP0 url it with
    | none => scrapeP0 url rest
    | some r => r :: scrapeP0 url rest

/-- One matched education node of `part_000` (`scrapeEducation`,
lines 266–312). -/
structure ItemEdu where
  instThrows : Bool
  institutionElem : Option String
  detailsThrows : Bool
  detailTexts : List String
  deriving DecidableEq, Repr

/-- The record pushed by `scrapeEducation` in `part_000`
(lines 301–306). -/
structure EducationP0 where
  profil : String
  etablissement : String
  diplome : String
  duree : String
  deriving DecidableEq, Repr

/-- Loop body of `scrapeEducation` in `part_000`: no duplicate checks; the
diploma and duration come from the trimmed texts of the first two detail
elements when present, and a throw inside the per-item `try` omits the
item. -/
def processItemEdu (url : String) (it : ItemEdu) : Option EducationP0 :=
  if it.instThrows then none
  else
    let institution := match it.institutionElem with
                       | some t => jsTrim t
                       | none => ""
    if it.detailsThrows then none
    else
      let diploma := match it.detailTexts.get? 0 with
                     | some a => jsTrim a
                     | none => ""
      let duration := match it.detailTexts.get? 1 with
                      | some a => jsTrim a
                      | none => ""
      some ⟨url, institution, diploma, duration⟩

/-! ### The unguarded resolver checks of `part_000`

In `part_000`, `isChildElement` (lines 128–132) and `hasChildrenOfSameType`
(lines 140–143) are awaited *before* the per-item `try` opens at line 150.
A throw in either one therefore escapes `scrapeExperience` entirely: the
section aborts, its local record array is lost, and the exception is caught
only in `main` (line 385).  The definitions below extend the pipeline with
these two error paths. -/

/-- One matched experience node of `part_000` together with the behaviour
of its two unguarded resolver checks: `isChildThrows` marks
`isChildElement` throwing, `hasChildrenThrows` marks
`hasChildrenOfSameType` throwing (it only runs when the first check
returned false); `item` carries the data of the rest of the loop body. -/
structure ItemP0E where
  isChildThrows : Bool
  hasChildrenThrows : Bool
  item : ItemP0
  deriving DecidableEq, Repr

/-- Whether one of the item's unguarded resolver checks throws during the
loop body: the containment check is only reached when the ancestor check
returned false. -/
def resolverCheckThrows (it : ItemP0E) : Bool :=
  it.isChildThrows || (!it.item.isChild && it.hasChildrenThrows)

/-- Loop body of `scrapeExperience` in `part_000` (lines 124–244) with the
unguarded resolver checks included: a throw of either check escapes as
`.error`; otherwise skips and per-item-`try` failures behave as in
`processItemP0`. -/
def processItemP0E (url : String) (it : ItemP0E) : Except String (Option ExperienceP0) :=
  if it.isChildThrows then
    .error "TypeError: evaluation failed in isChildElement"
  else if it.item.isChild then .ok none
  else if it.hasChildrenThrows then
    .error "TypeError: evaluation failed in hasChildrenOfSameType"
  else .ok (processItemP0 url it.item)

/-- `scrapeExperience` of `part_000` with its escape behaviour: records are
accumulated in enumeration order, but a throw of an unguarded resolver
check propagates out of the function — the section aborts and the records
already accumulated in its local array are lost. -/
def scrapeP0E (url : String) : List ItemP0E → Except String (List ExperienceP0)
  | [] => .ok []
  | it :: rest =>
    match processItemP0E url it with
    | .error m => .error m
    | .ok none => scrapeP0E url rest
    | .ok (some r) =>
      match scrapeP0E url rest with
      | .error m => .error m
      | .ok l => .ok (r :: l)

/-! ### Object-key view of the `scraper.js` record construction

Claim C9 is about JavaScript object *keys*: no record may omit a key,
whatever steps fail.  The structures above have every field by type, so the
key set is re-embedded at the level the code works at: an ordered
association list built exactly as the code builds and mutates its record
object. -/

/-- A JavaScript object field value. -/
inductive FieldVal where
  | vNull : FieldVal
  | vStr : String → FieldVal
  | vNat : Nat → FieldVal
  | vBool : Bool → FieldVal
  deriving DecidableEq, Repr

/-- A JavaScript object as an ordered key/value list. -/
def KVRecord := List (String × FieldVal)

/-- JavaScript property assignment `r[k] = v`: an existing key keeps its
position and gets the new value, a missing key is appended at the end. -/
def setField (k : String) (v : FieldVal) : KVRecord → KVRecord
  | [] => [(k, v)]
  | (k0, v0) :: rest => if k0 = k then (k, v) :: rest else (k0, v0) :: setField k v rest

/-- The object literal of lines 65–75 of `scraper.js`: all nine keys are
present from the start, the extractable ones holding null. -/
def initExperienceKV (idx : Nat) : KVRecord :=
  [("index", .vNat idx), ("role", .vNull), ("company", .vNull), ("position", .vNull),
   ("duration", .vNull), ("location", .vNull), ("description", .vNull), ("skills", .vNull),
   ("has_children", .vBool false)]

/-- The nine keys of the `scraper.js` experience record, in literal
order. -/
def experienceKeysJS : List String :=
  ["index", "role", "company", "position", "duration", "location", "description",
   "skills", "has_children"]

/-- Lines 86–96 of `scraper.js` on the key/value object: the role is
assigned only when the role element is found and its text evaluates without
throwing. -/
def roleStepKV (it : ItemJS) (r : KVRecord) : KVRecord :=
  if it.roleQueryThrows then r
  else match it.roleElem with
       | some t => setField "role" (.vStr (jsTrim t)) r
       | none => r

/-- Lines 98–136 of `scraper.js` on the key/value object. -/
def detailsStepKV (it : ItemJS) (r : KVRecord) : KVRecord :=
  if it.detailQueryThrows then r
  else
    let dt := filterTexts it.detailTexts
    let r1 := match dt with
      | [] => r
      | a :: _ =>
        let cp := decomposeCompanyJS a
        setField "position" (match cp.2 with | some p => .vStr p | none => .vNull)
          (setField "company" (.vStr cp.1) r)
    let r2 := match dt.get? 1 with
      | some b => setField "duration" (.vStr b) r1
      | none => r1
    match dt.get? 2 with
    | some c => setField "location" (.vStr c) r2
    | none => r2

/-- Lines 138–169 of `scraper.js` on the key/value object. -/
def skillsStepKV (it : ItemJS) (r : KVRecord) : KVRecord :=
  if it.skillQueryThrows then r
  else match filterTexts it.skillDescTexts with
    | [] => setField "skills" .vNull (setField "description" .vNull r)
    | [a] => setField "skills" (.vStr a) (setField "description" .vNull r)
    | a :: b :: rest =>
      setField "skills" (.vStr ((a :: b :: rest).getLastD ""))
        (setField "description" (.vStr a) r)

/-- The per-item construction of `scraper.js` seen at the key level:
`none` models `continue`, `some` the object that `experiences.push`
receives. -/
def processItemKV (idx : Nat) (it : ItemJS) : Option KVRecord :=
  let base := initExperienceKV idx
  if it.childQueryThrows then some base
  else if 1 < it.sameTypeDescendants then none
  else some (skillsStepKV it (detailsStepKV it (roleStepKV it base)))

/-- The object literal pushed at lines 227–235 of `part_000`, keyed as in
the source. -/
def experienceP0KV (r : ExperienceP0) : KVRecord :=
  [("Profil", .vStr r.profil), ("Titre du poste", .vStr r.titrePoste),
   ("Entreprise et type d\x27emploi", .vStr r.entrepriseEtType),
   ("Dates et durée", .vStr r.datesEtDuree), ("Lieu", .vStr r.lieu),
   ("Description", .vStr r.description), ("Compétences", .vStr r.competences)]

/-- The object literal pushed at lines 301–306 of `part_000`. -/
def educationP0KV (r : EducationP0) : KVRecord :=
  [("Profil", .vStr r.profil), ("Établissement", .vStr r.etablissement),
   ("Diplôme", .vStr r.diplome), ("Durée", .vStr r.duree)]

/-! ### The organization split as the spec words it -/

/-- Modelled from the spec: claim C2 reads the organization decomposition as
a split on the *first* occurrence of `" · "` with the position taking the
entire right side; this definition follows those words, to be compared with
`decomposeCompanyJS`, which the source derives from `split(' · ')` plus
`parts[0]`/`parts[1]`. -/
def decomposeCompanyFirstSplit (companyInfo : String) : String × Option String :=
  match jsSplit " · " companyInfo with
  | [] => (companyInfo, none)
  | [_] => (companyInfo, none)
  | p :: q :: rest => (p, some (joinSep " · " (q :: rest)))

/-! ### Helper lemmas about the `scraper.js` pipeline -/

lemma roleStep_index (it : ItemJS) (r : ExperienceData) :
    (roleStep it r).index = r.index := by
  unfold roleStep
  split
  · rfl
  · split <;> rfl

lemma detailsStep_index (it : ItemJS) (r : ExperienceData) :
    (detailsStep it r).index = r.index := by
  unfold detailsStep
  split <;> rfl

lemma skillsStep_index (it : ItemJS) (r : ExperienceData) :
    (skillsStep it r).index = r.index := by
  unfold skillsStep
  split <;> rfl

lemma detailsStep_role (it : ItemJS) (r : ExperienceData) :
    (detailsStep it r).role = r.role := by
  unfold detailsStep
  split <;> rfl

lemma skillsStep_role (it : ItemJS) (r : ExperienceData) :
    (skillsStep it r).role = r.role := by
  unfold skillsStep
  split <;> rfl

lemma processItem_index (idx : Nat) (it : ItemJS) (r : ExperienceData)
    (h : processItem idx it = some r) : r.index = idx := by
  unfold processItem at h
  split at h
  · injection h with h
    subst h
    rfl
  · split at h
    · exact Option.noConfusion h
    · injection h with h
      subst h
      rw [skillsStep_index, detailsStep_index, roleStep_index]
      rfl

lemma processItem_role_none (idx : Nat) (it : ItemJS) (r : ExperienceData)
    (hthrow : it.roleQueryThrows = true) (h : processItem idx it = some r) :
    r.role = none := by
  unfold processItem at h
  split at h
  · injection h with h
    subst h
    rfl
  · split at h
    · exact Option.noConfusion h
    · injection h with h
      subst h
      rw [skillsStep_role, detailsStep_role]
      unfold roleStep
      rw [hthrow]
      simp [initExperience]

lemma roleStep_id (it : ItemJS) (r : ExperienceData) (h : it.roleQueryThrows = true) :
    roleStep it r = r := by
  unfold roleStep
  rw [h]
  simp

lemma detailsStep_id (it : ItemJS) (r : ExperienceData) (h : it.detailQueryThrows = true) :
    detailsStep it r = r := by
  unfold detailsStep
  rw [h]
  simp

lemma skillsStep_id (it : ItemJS) (r : ExperienceData) (h : it.skillQueryThrows = true) :
    skillsStep it r = r := by
  unfold skillsStep
  rw [h]
  simp

lemma roleStep_rest (it : ItemJS) (r : ExperienceData) :
    (roleStep it r).company = r.company ∧ (roleStep it r).position = r.position ∧
    (roleStep it r).duration = r.duration ∧ (roleStep it r).location = r.location ∧
    (roleStep it r).description = r.description ∧ (roleStep it r).skills = r.skills := by
  unfold roleStep
  split
  · exact ⟨rfl, rfl, rfl, rfl, rfl, rfl⟩
  · split <;> exact ⟨rfl, rfl, rfl, rfl, rfl, rfl⟩

lemma detailsStep_desc_skills (it : ItemJS) (r : ExperienceData) :
    (detailsStep it r).description = r.description ∧
    (detailsStep it r).skills = r.skills := by
  unfold detailsStep
  split <;> exact ⟨rfl, rfl⟩

lemma skillsStep_rest (it : ItemJS) (r : ExperienceData) :
    (skillsStep it r).company = r.company ∧ (skillsStep it r).position = r.position ∧
    (skillsStep it r).duration = r.duration ∧ (skillsStep it r).location = r.location := by
  unfold skillsStep
  split <;> exact ⟨rfl, rfl, rfl, rfl⟩

lemma processItem_null_fields (idx : Nat) (it : ItemJS) (r : ExperienceData)
    (h : processItem idx it = some r) :
    (it.roleQueryThrows = true → r.role = none) ∧
    (it.detailQueryThrows = true →
       r.company = none ∧ r.position = none ∧ r.duration = none ∧ r.location = none) ∧
    (it.skillQueryThrows = true → r.description = none ∧ r.skills = none) ∧
    (it.childQueryThrows = true → r = initExperience idx) := by
  unfold processItem at h
  split at h
  · injection h with h
    subst h
    exact ⟨fun _ => rfl, fun _ => ⟨rfl, rfl, rfl, rfl⟩, fun _ => ⟨rfl, rfl⟩, fun _ => rfl⟩
  · rename_i hc
    split at h
    · exact Option.noConfusion h
    · injection h with h
      subst h
      refine ⟨?_, ?_, ?_, fun hcq => absurd hcq hc⟩
      · intro hr
        rw [skillsStep_role, detailsStep_role, roleStep_id it _ hr]
        rfl
      · intro hd
        rw [detailsStep_id it _ hd]
        have h1 := skillsStep_rest it (roleStep it (initExperience idx))
        have h2 := roleStep_rest it (initExperience idx)
        exact ⟨by rw [h1.1, h2.1]; rfl, by rw [h1.2.1, h2.2.1]; rfl,
               by rw [h1.2.2.1, h2.2.2.1]; rfl, by rw [h1.2.2.2, h2.2.2.2.1]; rfl⟩
      · intro hs
        rw [skillsStep_id it _ hs]
        have h1 := detailsStep_desc_skills it (roleStep it (initExperience idx))
        have h2 := roleStep_rest it (initExperience idx)
        exact ⟨by rw [h1.1, h2.2.2.2.2.1]; rfl, by rw [h1.2, h2.2.2.2.2.2]; rfl⟩

lemma processItemP0_none_of_throw (url : String) (it : ItemP0)
    (h : it.titleThrows = true ∨ it.detailsThrows = true ∨ it.descThrows = true) :
    processItemP0 url it = none := by
  unfold processItemP0
  rcases h with h | h | h <;> simp [h]

lemma processItemP0E_error_of_throw (url : String) (it : ItemP0E)
    (h : resolverCheckThrows it = true) :
    ∃ m : String, processItemP0E url it = .error m := by
  unfold resolverCheckThrows at h
  cases hic : it.isChildThrows with
  | true =>
    exact ⟨"TypeError: evaluation failed in isChildElement",
           by simp [processItemP0E, hic]⟩
  | false =>
    rw [hic] at h
    simp only [Bool.false_or, Bool.and_eq_true, Bool.not_eq_true'] at h
    obtain ⟨h1, h2⟩ := h
    exact ⟨"TypeError: evaluation failed in hasChildrenOfSameType",
           by simp [processItemP0E, hic, h1, h2]⟩

lemma processItemP0E_ok_of_no_throw (url : String) (it : ItemP0E)
    (h : resolverCheckThrows it = false) :
    processItemP0E url it = .ok (processItemP0 url it.item) := by
  unfold resolverCheckThrows at h
  simp only [Bool.or_eq_false_iff, Bool.and_eq_false_iff, Bool.not_eq_false'] at h
  obtain ⟨h1, h2⟩ := h
  unfold processItemP0E
  rw [h1]
  cases hic : it.item.isChild with
  | true => simp [hic, processItemP0]
  | false =>
    rcases h2 with h2 | h2
    · rw [hic] at h2
      exact absurd h2 (by simp)
    · simp [hic, h2]

lemma scrapeP0E_error_of_mem (url : String) :
    ∀ (items : List ItemP0E) (it : ItemP0E), it ∈ items →
      resolverCheckThrows it = true → ∃ m : String, scrapeP0E url items = .error m := by
  intro items
  induction items with
  | nil => intro it h; simp at h
  | cons hd tl ih =>
    intro it hmem hthrow
    rcases List.mem_cons.mp hmem with h | h
    · subst h
      obtain ⟨m, hm⟩ := processItemP0E_error_of_throw url it hthrow
      exact ⟨m, by simp [scrapeP0E, hm]⟩
    · cases hph : processItemP0E url hd with
      | error m => exact ⟨m, by simp [scrapeP0E, hph]⟩
      | ok o =>
        obtain ⟨m, hm⟩ := ih it h hthrow
        cases o with
        | none => exact ⟨m, by simp [scrapeP0E, hph, hm]⟩
        | some r => exact ⟨m, by simp [scrapeP0E, hph, hm]⟩

lemma scrapeP0E_ok_of_no_throw (url : String) :
    ∀ items : List ItemP0E, (∀ it ∈ items, resolverCheckThrows it = false) →
      scrapeP0E url items = .ok (scrapeP0 url (items.map ItemP0E.item)) := by
  intro items
  induction items with
  | nil => intro h; rfl
  | cons hd tl ih =>
    intro h
    have hhd := processItemP0E_ok_of_no_throw url hd (h hd (by simp))
    have htl := ih (fun it hit => h it (by simp [hit]))
    simp only [scrapeP0E, hhd, List.map_cons, scrapeP0]
    cases hp : processItemP0 url hd.item <;> simp [hp, htl]

lemma scrapeAuxJS_noStop_eq (items : List ItemJS) : ∀ idx : Nat,
    scrapeAuxJS noStop idx items
      = (items.enumFrom idx).filterMap (fun p => processItem p.1 p.2) := by
  induction items with
  | nil => intro idx; rfl
  | cons it rest ih =>
    intro idx
    simp only [scrapeAuxJS, noStop, List.enumFrom, List.filterMap_cons]
    cases hp : processItem idx it <;> simp [hp, ih (idx + 1)]

lemma scrapeAuxJS_noStop_append (l1 l2 : List ItemJS) : ∀ idx : Nat,
    scrapeAuxJS noStop idx (l1 ++ l2)
      = scrapeAuxJS noStop idx l1 ++ scrapeAuxJS noStop (idx + l1.length) l2 := by
  induction l1 with
  | nil => intro idx; simp [scrapeAuxJS]
  | cons it rest ih =>
    intro idx
    have harith : idx + (it :: rest).length = (idx + 1) + rest.length := by
      simp [List.length_cons]
      omega
    rw [harith]
    simp only [List.cons_append, scrapeAuxJS, noStop]
    cases hp : processItem idx it <;> simp [hp, ih (idx + 1)]

lemma scrapeP0_eq_filterMap (url : String) (items : List ItemP0) :
    scrapeP0 url items = items.filterMap (processItemP0 url) := by
  induction items with
  | nil => rfl
  | cons it rest ih =>
    simp only [scrapeP0, List.filterMap_cons]
    cases hp : processItemP0 url it <;> simp [hp, ih]

lemma scrapeAuxJS_stop_take (stop : Nat → Bool) (k : Nat)
    (hlt : ∀ i, i < k → stop i = false) (hk : stop k = true) :
    ∀ (items : List ItemJS) (idx : Nat), idx ≤ k →
      scrapeAuxJS stop idx items = scrapeAuxJS noStop idx (items.take (k - idx)) := by
  intro items
  induction items with
  | nil => intro idx _; simp [scrapeAuxJS]
  | cons it rest ih =>
    intro idx hidx
    by_cases h : idx = k
    · subst h
      simp [scrapeAuxJS, hk, Nat.sub_self]
    · have hidx' : idx < k := lt_of_le_of_ne hidx h
      have hstop : stop idx = false := hlt idx hidx'
      have hsub : k - idx = (k - (idx + 1)) + 1 := by omega
      rw [hsub]
      simp only [scrapeAuxJS, hstop, List.take_succ_cons, noStop]
      cases hp : processItem idx it <;>
        simp [hp, ih (idx + 1) (by omega)]

lemma scrapeAuxJS_index_ge (stop : Nat → Bool) :
    ∀ (items : List ItemJS) (idx : Nat) (r : ExperienceData),
      r ∈ scrapeAuxJS stop idx items → idx ≤ r.index := by
  intro items
  induction items with
  | nil => intro idx r h; simp [scrapeAuxJS] at h
  | cons it rest ih =>
    intro idx r h
    unfold scrapeAuxJS at h
    split at h
    · simp at h
    · split at h
      · exact Nat.le_of_succ_le (ih (idx + 1) r h)
      · rename_i r0 hp
        rcases List.mem_cons.mp h with h | h
        · subst h
          exact Nat.le_of_eq (processItem_index idx it r hp).symm
        · exact Nat.le_of_succ_le (ih (idx + 1) r h)

lemma scrapeAuxJS_indices_sorted (stop : Nat → Bool) :
    ∀ (items : List ItemJS) (idx : Nat),
      ((scrapeAuxJS stop idx items).map (fun r => r.index)).Sorted (· < ·) := by
  intro items
  induction items with
  | nil => intro idx; simp [scrapeAuxJS]
  | cons it rest ih =>
    intro idx
    unfold scrapeAuxJS
    split
    · simp
    · split
      · exact ih (idx + 1)
      · rename_i r0 hp
        simp only [List.map_cons, List.sorted_cons]
        refine ⟨?_, ih (idx + 1)⟩
        intro b hb
        rcases List.mem_map.mp hb with ⟨x, hx, hxb⟩
        have h1 : idx + 1 ≤ x.index := scrapeAuxJS_index_ge stop rest (idx + 1) x hx
        have h2 : r0.index = idx := processItem_index idx it r0 hp
        omega

/-! ### Helper lemmas about object keys -/

/-- The ordered key list of a JavaScript object. -/
def kvKeys (r : KVRecord) : List String := r.map Prod.fst

lemma kvKeys_setField (k : String) (v : FieldVal) :
    ∀ r : KVRecord, k ∈ kvKeys r → kvKeys (setField k v r) = kvKeys r := by
  intro r
  induction r with
  | nil => intro h; simp [kvKeys] at h
  | cons p rest ih =>
    intro h
    obtain ⟨k0, v0⟩ := p
    by_cases hk : k0 = k
    · subst hk
      simp [setField, kvKeys]
    · have hmem : k ∈ kvKeys rest := by
        simp only [kvKeys, List.map_cons, List.mem_cons] at h
        rcases h with h | h
        · exact absurd h.symm hk
        · exact h
      have hrest := ih hmem
      simp only [kvKeys] at hrest ⊢
      simp [setField, hk, hrest]

lemma kvKeys_setField_canon (k : String) (v : FieldVal) (r : KVRecord)
    (h : kvKeys r = experienceKeysJS) (hm : k ∈ experienceKeysJS) :
    kvKeys (setField k v r) = experienceKeysJS := by
  rw [kvKeys_setField k v r (by rw [h]; exact hm), h]

lemma kvKeys_roleStepKV (it : ItemJS) (r : KVRecord)
    (h : kvKeys r = experienceKeysJS) :
    kvKeys (roleStepKV it r) = experienceKeysJS := by
  unfold roleStepKV
  split
  · exact h
  · cases it.roleElem
    · exact h
    · exact kvKeys_setField_canon _ _ _ h (by decide)

lemma kvKeys_detailsStepKV (it : ItemJS) (r : KVRecord)
    (h : kvKeys r = experienceKeysJS) :
    kvKeys (detailsStepKV it r) = experienceKeysJS := by
  unfold detailsStepKV
  split
  · exact h
  · dsimp only
    split <;>
      split <;>
        split <;>
          (repeat
            first
            | exact h
            | refine kvKeys_setField_canon _ _ _ ?_ (by decide))

lemma kvKeys_skillsStepKV (it : ItemJS) (r : KVRecord)
    (h : kvKeys r = experienceKeysJS) :
    kvKeys (skillsStepKV it r) = experienceKeysJS := by
  unfold skillsStepKV
  split
  · exact h
  · split <;>
      (repeat
        first
        | exact h
        | refine kvKeys_setField_canon _ _ _ ?_ (by decide))

lemma kvKeys_initExperienceKV (idx : Nat) :
    kvKeys (initExperienceKV idx) = experienceKeysJS := by
  rfl

lemma getLast?_cons_eq : ∀ (l : List String) (a d : String),
    (a :: l).getLast? = some ((a :: l).getLastD d) := by
  intro l
  induction l with
  | nil => intro a d; rfl
  | cons b tl ih =>
    intro a d
    rw [List.getLast?_cons_cons, List.getLastD_cons]
    exact ih b a

/-! ### Claims about the description/skills decomposer (C1) -/

/-- Claim C1 counterexample: in the `part_000` variant, three fragments give
the *second* fragment as the skills, not the last one as the claim
states. -/
theorem descSkills_p0_second_not_last :
    (decomposeDescSkillsP0 ["a", "b", "c"]).2 = "b" ∧
    jsTrim ((["a", "b", "c"] : List String).getLastD "") = "c" ∧
    (decomposeDescSkillsP0 ["a", "b", "c"]).2 ≠ "c" := by
  refine ⟨by decide, by decide, by decide⟩

/-- Claim C1 (amended): with 0 fragments both outputs stay at the null
sentinel and with 1 fragment the lone fragment becomes the skills, in both
variants; with 2 or more fragments the description is fragment 0 and the
skills are the *last* fragment in the `scraper.js` variant but the *second*
fragment in the `part_000` variant (whose null sentinel is the literal
string "null" and which trims each fragment at use). -/
theorem descSkills_fragment_mapping :
    decomposeDescSkillsJS [] = (none, none) ∧
    (∀ a : String, decomposeDescSkillsJS [a] = (none, some a)) ∧
    (∀ l : List String, 2 ≤ l.length →
       decomposeDescSkillsJS l = (l.head?, l.getLast?)) ∧
    decomposeDescSkillsP0 [] = ("null", "null") ∧
    (∀ a : String, decomposeDescSkillsP0 [a] = ("null", jsTrim a)) ∧
    (∀ l : List String, 2 ≤ l.length →
       decomposeDescSkillsP0 l
         = (jsTrim ((l.get? 0).getD ""), jsTrim ((l.get? 1).getD ""))) := by
  refine ⟨rfl, fun a => rfl, ?_, rfl, fun a => rfl, ?_⟩
  · intro l hl
    match l with
    | [] => simp at hl
    | [a] => simp at hl
    | a :: b :: rest =>
      rw [getLast?_cons_eq (b :: rest) a ""]
      rfl
  · intro l hl
    match l with
    | [] => simp at hl
    | [a] => simp at hl
    | a :: b :: rest => rfl

/-- Witness for C1: the two fragment-count hypotheses hold at concrete
three-fragment inputs and the mapping evaluates as stated. -/
theorem descSkills_fragment_mapping_witness :
    (2 ≤ (["x", "y", "z"] : List String).length ∧
      decomposeDescSkillsJS ["x", "y", "z"]
        = ((["x", "y", "z"] : List String).head?,
           (["x", "y", "z"] : List String).getLast?)) ∧
    (2 ≤ (["u", "v", "w"] : List String).length ∧
      decomposeDescSkillsP0 ["u", "v", "w"]
        = (jsTrim (((["u", "v", "w"] : List String).get? 0).getD ""),
           jsTrim (((["u", "v", "w"] : List String).get? 1).getD ""))) :=
  ⟨⟨by decide, descSkills_fragment_mapping.2.2.1 ["x", "y", "z"] (by decide)⟩,
   ⟨by decide, descSkills_fragment_mapping.2.2.2.2.2 ["u", "v", "w"] (by decide)⟩⟩

/-! ### Claims about the organization/position split (C2) -/

/-- Claim C2 counterexample: on an organization fragment with two
delimiters, the code keeps only the part between the first and second
delimiter as the position, while the claim (first-occurrence split, entire
right side) demands the whole tail. -/
theorem company_position_tail_dropped :
    decomposeCompanyJS "Acme Corp · Full-time · Remote"
      = ("Acme Corp", some "Full-time") ∧
    decomposeCompanyFirstSplit "Acme Corp · Full-time · Remote"
      = ("Acme Corp", some "Full-time · Remote") ∧
    decomposeCompanyJS "Acme Corp · Full-time · Remote"
      ≠ decomposeCompanyFirstSplit "Acme Corp · Full-time · Remote" := by
  refine ⟨by decide, by decide, by decide⟩

/-- Claim C2 (amended): if the organization fragment contains the delimiter
" · ", the organization is the trimmed first delimiter-separated segment and
the position the trimmed second segment — any further segments are
discarded; without the delimiter the whole string is the organization and
the position stays null. -/
theorem company_position_first_two_parts (s : String) :
    ((jsSplit " · " s).length < 2 → decomposeCompanyJS s = (s, none)) ∧
    (∀ (p q : String) (rest : List String), jsSplit " · " s = p :: q :: rest →
       decomposeCompanyJS s = (jsTrim p, some (jsTrim q))) := by
  constructor
  · intro h
    unfold decomposeCompanyJS
    rw [if_neg (by omega)]
  · intro p q rest h
    unfold decomposeCompanyJS
    rw [h]
    simp

/-- Witness for C2: both branches evaluated at concrete fragments. -/
theorem company_position_first_two_parts_witness :
    ((jsSplit " · " "Solo Org").length < 2 ∧
      decomposeCompanyJS "Solo Org" = ("Solo Org", none)) ∧
    (jsSplit " · " "Acme Corp · Full-time · Remote"
        = "Acme Corp" :: "Full-time" :: ["Remote"] ∧
      decomposeCompanyJS "Acme Corp · Full-time · Remote"
        = (jsTrim "Acme Corp", some (jsTrim "Full-time"))) :=
  ⟨⟨by decide, (company_position_first_two_parts "Solo Org").1 (by decide)⟩,
   ⟨by decide,
    (company_position_first_two_parts "Acme Corp · Full-time · Remote").2
      "Acme Corp" "Full-time" ["Remote"] (by decide)⟩⟩

/-! ### Claims about the containment check (C3) -/

/-- Claim C3 counterexample: in the `scraper.js` variant, an item containing
exactly one descendant matching the item selector is *not* skipped — a
record is produced — although the claim demands a skip at one or more. -/
theorem containment_single_descendant_processed :
    processItem 0 ⟨false, 1, false, some "Lead Dev", false, ["Acme · CDI"], false, ["Skills: X"]⟩
      ≠ none := by
  decide

/-- Claim C3 (amended): the `part_000` variant skips an item containing at
least one descendant matching the item selector, but the `scraper.js`
variant skips only at two or more matching descendants and processes an item
with exactly one. -/
theorem containment_skip_thresholds :
    (∀ (idx : Nat) (it : ItemJS), it.childQueryThrows = false →
       1 < it.sameTypeDescendants → processItem idx it = none) ∧
    (∀ (idx : Nat) (it : ItemJS), it.childQueryThrows = false →
       it.sameTypeDescendants = 1 → (processItem idx it).isSome = true) ∧
    (∀ (url : String) (it : ItemP0), it.isChild = false →
       0 < it.sameTypeDescendants → processItemP0 url it = none) := by
  refine ⟨?_, ?_, ?_⟩
  · intro idx it h1 h2
    simp [processItem, h1, h2]
  · intro idx it h1 h2
    simp [processItem, h1, h2]
  · intro url it h1 h2
    simp [processItemP0, h1, Nat.pos_iff_ne_zero.mp h2]

/-- Witness for C3: the three thresholds evaluated at concrete items. -/
theorem containment_skip_thresholds_witness :
    ((⟨false, 2, false, none, false, [], false, []⟩ : ItemJS).childQueryThrows = false ∧
      1 < (⟨false, 2, false, none, false, [], false, []⟩ : ItemJS).sameTypeDescendants ∧
      processItem 3 ⟨false, 2, false, none, false, [], false, []⟩ = none) ∧
    ((⟨false, 1, false, none, false, [], false, []⟩ : ItemJS).sameTypeDescendants = 1 ∧
      (processItem 4 ⟨false, 1, false, none, false, [], false, []⟩).isSome = true) ∧
    ((⟨false, 1, false, none, false, [], false, []⟩ : ItemP0).isChild = false ∧
      0 < (⟨false, 1, false, none, false, [], false, []⟩ : ItemP0).sameTypeDescendants ∧
      processItemP0 "url0" ⟨false, 1, false, none, false, [], false, []⟩ = none) :=
  ⟨⟨rfl, by decide, containment_skip_thresholds.1 3 _ rfl (by decide)⟩,
   ⟨rfl, containment_skip_thresholds.2.1 4 _ rfl rfl⟩,
   ⟨rfl, by decide, containment_skip_thresholds.2.2 "url0" _ rfl (by decide)⟩⟩

/-! ### Claims about the details decomposer (C7) -/

/-- Claim C7 counterexample: in the `part_000` variant a two-fragment detail
sequence yields *no* extracted detail fields at all — the dates field stays
empty instead of receiving fragment 1 as the claim states. -/
theorem details_p0_two_fragments_unextracted :
    decomposeDetailsP0 ["Acme Corp · CDI", "janv. 2020 - mai 2021"] = ⟨"", "", ""⟩ ∧
    (decomposeDetailsP0 ["Acme Corp · CDI", "janv. 2020 - mai 2021"]).dates
      ≠ jsTrim "janv. 2020 - mai 2021" := by
  refine ⟨rfl, by decide⟩

/-- Claim C7 (amended): in the `scraper.js` variant, fragment 0 is
decomposed into organization/position, fragment 1 is the date range,
fragment 2 — when present — the location, and fragments past index 2 are
ignored (a two-fragment sequence still yields organization/position and date
range); in the `part_000` variant the three detail fields are populated only
when at least three fragments are present (fragment 0 whole, undecomposed),
with fragments past index 2 ignored, and a two-fragment sequence yields
nothing. -/
theorem details_positional_mapping :
    (∀ (a b : String) (rest : List String),
       decomposeDetailsJS (a :: b :: rest)
         = ⟨some (decomposeCompanyJS a).1, (decomposeCompanyJS a).2, some b, rest.head?⟩) ∧
    (∀ l : List String, decomposeDetailsJS l = decomposeDetailsJS (l.take 3)) ∧
    (∀ a b : String, decomposeDetailsP0 [a, b] = ⟨"", "", ""⟩) ∧
    (∀ (a b c : String) (rest : List String),
       decomposeDetailsP0 (a :: b :: c :: rest) = ⟨jsTrim a, jsTrim b, jsTrim c⟩) := by
  refine ⟨?_, ?_, fun a b => rfl, fun a b c rest => rfl⟩
  · intro a b rest
    cases rest <;> rfl
  · intro l
    match l with
    | [] => rfl
    | [a] => rfl
    | [a, b] => rfl
    | a :: b :: c :: rest => rfl

/-! ### Claim about per-item failure isolation (C4) -/

/-- Claim C4 counterexample: in `part_000` a single item whose
duplicate-resolver check throws aborts the *whole* section — with the same
items and the failing one removed, both neighbouring records are produced,
but with it present the section returns an error and no record at all (in
particular the record of the item after the failure does not appear). -/
theorem duplicate_check_throw_aborts_section :
    processItemP0E "u" ⟨false, false, ⟨false, 0, false, some "C", false, [], false, []⟩⟩
      = .ok (some ⟨"u", "C", "", "", "", "null", "null"⟩) ∧
    scrapeP0E "u"
        [⟨false, false, ⟨false, 0, false, some "A", false, [], false, []⟩⟩,
         ⟨true, false, ⟨false, 0, false, some "B", false, [], false, []⟩⟩,
         ⟨false, false, ⟨false, 0, false, some "C", false, [], false, []⟩⟩]
      = .error "TypeError: evaluation failed in isChildElement" ∧
    scrapeP0E "u"
        [⟨false, false, ⟨false, 0, false, some "A", false, [], false, []⟩⟩,
         ⟨false, false, ⟨false, 0, false, some "C", false, [], false, []⟩⟩]
      = .ok [⟨"u", "A", "", "", "", "null", "null"⟩,
             ⟨"u", "C", "", "", "", "null", "null"⟩] := by
  refine ⟨rfl, rfl, rfl⟩

/-- Claim C4 (amended): a failure *inside the per-item protection* is
isolated — the output is the records of the items before k, then item k's
own contribution, then the unchanged processing of the items after k; the
failed item is appended with nulls for exactly the failed fields in the
`scraper.js` variant and omitted in the `part_000` variant.  But in
`part_000` the two duplicate-resolver checks run outside the per-item
`try`: a throw in either check aborts the whole section with an error,
while a section none of whose resolver checks throw behaves exactly as the
isolated pipeline. -/
theorem failure_isolated_to_item :
    (∀ (items : List ItemJS) (k : Nat) (it : ItemJS),
       items.get? k = some it →
       (it.childQueryThrows || it.roleQueryThrows || it.detailQueryThrows
          || it.skillQueryThrows) = true →
       (scrapeExperienceJS noStop items
          = scrapeExperienceJS noStop (items.take k)
            ++ ((processItem k it).toList
                 ++ scrapeAuxJS noStop (k + 1) (items.drop (k + 1)))) ∧
       (∀ r : ExperienceData, processItem k it = some r →
          (it.roleQueryThrows = true → r.role = none) ∧
          (it.detailQueryThrows = true →
             r.company = none ∧ r.position = none ∧
               r.duration = none ∧ r.location = none) ∧
          (it.skillQueryThrows = true → r.description = none ∧ r.skills = none) ∧
          (it.childQueryThrows = true → r = initExperience k))) ∧
    (∀ (url : String) (items : List ItemP0) (k : Nat) (it : ItemP0),
       items.get? k = some it →
       (it.titleThrows || it.detailsThrows || it.descThrows) = true →
       (scrapeP0 url items
          = scrapeP0 url (items.take k) ++ scrapeP0 url (items.drop (k + 1))) ∧
       processItemP0 url it = none) ∧
    (∀ (url : String) (items : List ItemP0E) (it : ItemP0E),
       it ∈ items → resolverCheckThrows it = true →
       ∃ m : String, scrapeP0E url items = .error m) ∧
    (∀ (url : String) (items : List ItemP0E),
       (∀ it ∈ items, resolverCheckThrows it = false) →
       scrapeP0E url items = .ok (scrapeP0 url (items.map ItemP0E.item))) := by
  refine ⟨?_, ?_, ?_, ?_⟩
  · intro items k it hk _hfail
    obtain ⟨hlt, hget⟩ := List.get?_eq_some.mp hk
    have hgetk : items[k] = it := by
      simpa [List.get_eq_getElem] using hget
    have hdrop : items.drop k = it :: items.drop (k + 1) := by
      rw [List.drop_eq_getElem_cons hlt, hgetk]
    have htk : (items.take k).length = k := by
      rw [List.length_take]
      omega
    constructor
    · have h1 := scrapeAuxJS_noStop_append (items.take k) (items.drop k) 0
      rw [List.take_append_drop, htk, hdrop] at h1
      unfold scrapeExperienceJS
      rw [h1]
      simp only [Nat.zero_add]
      cases hp : processItem k it <;> simp [scrapeAuxJS, noStop, hp]
    · intro r hp
      exact processItem_null_fields k it r hp
  · intro url items k it hk hfail
    have hnone : processItemP0 url it = none := by
      refine processItemP0_none_of_throw url it ?_
      simp only [Bool.or_eq_true] at hfail
      tauto
    obtain ⟨hlt, hget⟩ := List.get?_eq_some.mp hk
    have hgetk : items[k] = it := by
      simpa [List.get_eq_getElem] using hget
    have hdrop : items.drop k = it :: items.drop (k + 1) := by
      rw [List.drop_eq_getElem_cons hlt, hgetk]
    refine ⟨?_, hnone⟩
    rw [scrapeP0_eq_filterMap, scrapeP0_eq_filterMap, scrapeP0_eq_filterMap]
    conv_lhs => rw [← List.take_append_drop k items]
    rw [List.filterMap_append, hdrop]
    simp [hnone]
  · intro url items it hmem hthrow
    exact scrapeP0E_error_of_mem url items it hmem hthrow
  · intro url items h
    exact scrapeP0E_ok_of_no_throw url items h

/-- Witness for C4: a three-item `scraper.js` section whose middle item
throws on the role query; a one-item `part_000` section whose item throws
inside the per-item try; a three-item `part_000` section whose middle
resolver check throws (the abort path); and a benign two-item `part_000`
section (the agreement path). -/
theorem failure_isolated_to_item_witness :
    ((⟨false, 0, true, some "B", false, [], false, []⟩ : ItemJS).childQueryThrows
        || (⟨false, 0, true, some "B", false, [], false, []⟩ : ItemJS).roleQueryThrows
        || (⟨false, 0, true, some "B", false, [], false, []⟩ : ItemJS).detailQueryThrows
        || (⟨false, 0, true, some "B", false, [], false, []⟩ : ItemJS).skillQueryThrows) = true ∧
    (([⟨false, 0, false, some "A", false, [], false, []⟩,
       ⟨false, 0, true, some "B", false, [], false, []⟩,
       ⟨false, 0, false, some "C", false, [], false, []⟩] : List ItemJS).get? 1
       = some ⟨false, 0, true, some "B", false, [], false, []⟩) ∧
    (scrapeExperienceJS noStop
        [⟨false, 0, false, some "A", false, [], false, []⟩,
         ⟨false, 0, true, some "B", false, [], false, []⟩,
         ⟨false, 0, false, some "C", false, [], false, []⟩]
      = scrapeExperienceJS noStop
          (([⟨false, 0, false, some "A", false, [], false, []⟩,
             ⟨false, 0, true, some "B", false, [], false, []⟩,
             ⟨false, 0, false, some "C", false, [], false, []⟩] : List ItemJS).take 1)
        ++ ((processItem 1 ⟨false, 0, true, some "B", false, [], false, []⟩).toList
             ++ scrapeAuxJS noStop 2
                 (([⟨false, 0, false, some "A", false, [], false, []⟩,
                    ⟨false, 0, true, some "B", false, [], false, []⟩,
                    ⟨false, 0, false, some "C", false, [], false, []⟩] : List ItemJS).drop 2))) ∧
    (((⟨false, 0, true, none, false, [], false, []⟩ : ItemP0).titleThrows
        || (⟨false, 0, true, none, false, [], false, []⟩ : ItemP0).detailsThrows
        || (⟨false, 0, true, none, false, [], false, []⟩ : ItemP0).descThrows) = true ∧
      processItemP0 "u" ⟨false, 0, true, none, false, [], false, []⟩ = none) ∧
    ((⟨true, false, ⟨false, 0, false, none, false, [], false, []⟩⟩ : ItemP0E)
        ∈ ([⟨false, false, ⟨false, 0, false, none, false, [], false, []⟩⟩,
            ⟨true, false, ⟨false, 0, false, none, false, [], false, []⟩⟩] : List ItemP0E) ∧
      resolverCheckThrows ⟨true, false, ⟨false, 0, false, none, false, [], false, []⟩⟩ = true ∧
      (∃ m : String, scrapeP0E "u"
          [⟨false, false, ⟨false, 0, false, none, false, [], false, []⟩⟩,
           ⟨true, false, ⟨false, 0, false, none, false, [], false, []⟩⟩] = .error m)) ∧
    ((∀ it ∈ ([⟨false, false, ⟨false, 0, false, none, false, [], false, []⟩⟩,
               ⟨false, false, ⟨true, 0, false, none, false, [], false, []⟩⟩] : List ItemP0E),
        resolverCheckThrows it = false) ∧
      scrapeP0E "u"
          [⟨false, false, ⟨false, 0, false, none, false, [], false, []⟩⟩,
           ⟨false, false, ⟨true, 0, false, none, false, [], false, []⟩⟩]
        = .ok (scrapeP0 "u"
            (([⟨false, false, ⟨false, 0, false, none, false, [], false, []⟩⟩,
               ⟨false, false, ⟨true, 0, false, none, false, [], false, []⟩⟩]
               : List ItemP0E).map ItemP0E.item))) :=
  ⟨rfl, by decide,
   (failure_isolated_to_item.1
     [⟨false, 0, false, some "A", false, [], false, []⟩,
      ⟨false, 0, true, some "B", false, [], false, []⟩,
      ⟨false, 0, false, some "C", false, [], false, []⟩]
     1 ⟨false, 0, true, some "B", false, [], false, []⟩ (by decide) rfl).1,
   ⟨rfl,
    (failure_isolated_to_item.2.1 "u" [⟨false, 0, true, none, false, [], false, []⟩]
      0 ⟨false, 0, true, none, false, [], false, []⟩ (by decide) rfl).2⟩,
   ⟨by decide, rfl,
    failure_isolated_to_item.2.2.1 "u"
      [⟨false, false, ⟨false, 0, false, none, false, [], false, []⟩⟩,
       ⟨true, false, ⟨false, 0, false, none, false, [], false, []⟩⟩]
      ⟨true, false, ⟨false, 0, false, none, false, [], false, []⟩⟩ (by decide) rfl⟩,
   ⟨by decide,
    failure_isolated_to_item.2.2.2 "u"
      [⟨false, false, ⟨false, 0, false, none, false, [], false, []⟩⟩,
       ⟨false, false, ⟨true, 0, false, none, false, [], false, []⟩⟩] (by decide)⟩⟩

/-! ### Claim about the target boundary (C5) -/

/-- Claim C5: a throw escaping the section extraction is caught at the
target boundary: the target is reported unsuccessful with the thrown message
(never a null error), and its record list is empty — which is exactly the
set of records extracted before the failure, since the only throw that can
escape `scrapeExperience` (the null-configuration read at line 50) happens
before any item is enumerated. -/
theorem target_failure_boundary (url : String) (inp : ProfileInput) (m : String)
    (h : scrapeExperienceE inp = .error m) :
    (scrapeProfile url inp).success = false ∧
    (scrapeProfile url inp).error = some m ∧
    (scrapeProfile url inp).error ≠ none ∧
    (scrapeProfile url inp).experiences = [] ∧
    inp.configNull = true := by
  have hc : inp.configNull = true := by
    cases hcc : inp.configNull with
    | true => rfl
    | false =>
      exfalso
      cases htq : inp.topQueryThrows
      all_goals simp [scrapeExperienceE, hcc, htq] at h
  refine ⟨?_, ?_, ?_, ?_, hc⟩ <;> unfold scrapeProfile <;> rw [h] <;> simp

/-- Witness for C5: a null-configuration target evaluated concretely. -/
theorem target_failure_boundary_witness :
    scrapeExperienceE ⟨true, false, noStop, []⟩
        = .error "TypeError: Cannot read properties of null (reading selectors)" ∧
    (scrapeProfile "profile-url" ⟨true, false, noStop, []⟩).success = false ∧
    (scrapeProfile "profile-url" ⟨true, false, noStop, []⟩).error
        = some "TypeError: Cannot read properties of null (reading selectors)" ∧
    (scrapeProfile "profile-url" ⟨true, false, noStop, []⟩).experiences = [] ∧
    (⟨true, false, noStop, []⟩ : ProfileInput).configNull = true :=
  have happ := target_failure_boundary "profile-url" ⟨true, false, noStop, []⟩
    "TypeError: Cannot read properties of null (reading selectors)" rfl
  ⟨rfl, happ.1, happ.2.1, happ.2.2.2.1, happ.2.2.2.2⟩

/-! ### Claim about the stop flag (C6) -/

/-- Claim C6 (for the `scraper.js` variant, the one with a stop flag): the
flag is read before each item; if it is first observed set at the check
before the item at position k, the run equals the never-stopped run on the
first k items — the records of the surviving items with index below k — and
the section returns this partial output successfully, not as an error. -/
theorem stop_flag_partial_run (stop : Nat → Bool) (k : Nat) (items : List ItemJS)
    (h1 : ∀ i, i < k → stop i = false) (h2 : stop k = true) :
    scrapeExperienceJS stop items = scrapeExperienceJS noStop (items.take k) ∧
    scrapeExperienceE ⟨false, false, stop, items⟩
      = .ok (scrapeExperienceJS noStop (items.take k)) := by
  have hmain : scrapeExperienceJS stop items = scrapeExperienceJS noStop (items.take k) := by
    unfold scrapeExperienceJS
    have h := scrapeAuxJS_stop_take stop k h1 h2 items 0 (Nat.zero_le k)
    simpa using h
  exact ⟨hmain, by unfold scrapeExperienceE; simp [hmain]⟩

/-- Witness for C6: a flag first set at the check before item 2 of a
three-item section. -/
theorem stop_flag_partial_run_witness :
    (∀ i : Nat, i < 2 → (fun j => decide (2 ≤ j)) i = false) ∧
    ((fun j => decide (2 ≤ j)) 2 = true) ∧
    scrapeExperienceJS (fun j => decide (2 ≤ j))
        [⟨false, 0, false, some "A", false, [], false, []⟩,
         ⟨false, 0, false, some "B", false, [], false, []⟩,
         ⟨false, 0, false, some "C", false, [], false, []⟩]
      = scrapeExperienceJS noStop
          (([⟨false, 0, false, some "A", false, [], false, []⟩,
             ⟨false, 0, false, some "B", false, [], false, []⟩,
             ⟨false, 0, false, some "C", false, [], false, []⟩] : List ItemJS).take 2) :=
  have hlt : ∀ i : Nat, i < 2 → (fun j => decide (2 ≤ j)) i = false := by
    intro i hi
    simp only [decide_eq_false_iff_not]
    omega
  ⟨hlt, rfl,
   (stop_flag_partial_run (fun j => decide (2 ≤ j)) 2
     [⟨false, 0, false, some "A", false, [], false, []⟩,
      ⟨false, 0, false, some "B", false, [], false, []⟩,
      ⟨false, 0, false, some "C", false, [], false, []⟩] hlt rfl).1⟩

/-! ### Claim about output ordering (C8) -/

/-- Claim C8: records are appended in iteration order and never reordered —
the output is the in-order filtering of the enumerated items by survival,
and in the `scraper.js` variant the stored ordinal indices of the output
records are strictly increasing for every run, stopped or not. -/
theorem output_preserves_document_order :
    (∀ (stop : Nat → Bool) (items : List ItemJS),
       ((scrapeExperienceJS stop items).map (fun r => r.index)).Sorted (· < ·)) ∧
    (∀ items : List ItemJS,
       scrapeExperienceJS noStop items
         = (items.enumFrom 0).filterMap (fun p => processItem p.1 p.2)) ∧
    (∀ (url : String) (items : List ItemP0),
       scrapeP0 url items = items.filterMap (processItemP0 url)) := by
  refine ⟨?_, ?_, ?_⟩
  · intro stop items
    exact scrapeAuxJS_indices_sorted stop items 0
  · intro items
    exact scrapeAuxJS_noStop_eq items 0
  · intro url items
    exact scrapeP0_eq_filterMap url items

/-! ### Claim about record completeness (C9) -/

/-- Claim C9: every record appended to a section's output carries the full
canonical key set of its record shape, in literal order, whatever extraction
steps failed or found nothing — failed steps leave the null defaults of the
initial object in place but never remove a key. -/
theorem records_keep_all_keys :
    (∀ (idx : Nat) (it : ItemJS) (kv : KVRecord),
       processItemKV idx it = some kv → kvKeys kv = experienceKeysJS) ∧
    (∀ (url : String) (it : ItemP0) (r : ExperienceP0),
       processItemP0 url it = some r →
       kvKeys (experienceP0KV r)
         = ["Profil", "Titre du poste", "Entreprise et type d\x27emploi",
            "Dates et durée", "Lieu", "Description", "Compétences"]) ∧
    (∀ (url : String) (it : ItemEdu) (r : EducationP0),
       processItemEdu url it = some r →
       kvKeys (educationP0KV r) = ["Profil", "Établissement", "Diplôme", "Durée"]) := by
  refine ⟨?_, fun url it r h => rfl, fun url it r h => rfl⟩
  intro idx it kv h
  unfold processItemKV at h
  split at h
  · injection h with h
    subst h
    exact kvKeys_initExperienceKV idx
  · split at h
    · exact Option.noConfusion h
    · injection h with h
      subst h
      exact kvKeys_skillsStepKV it _
        (kvKeys_detailsStepKV it _ (kvKeys_roleStepKV it _ (kvKeys_initExperienceKV idx)))

/-- Witness for C9: three concrete records, one per record shape — the
first produced through the outer catch path (all defaults). -/
theorem records_keep_all_keys_witness :
    (processItemKV 0 ⟨true, 0, false, none, false, [], false, []⟩
        = some (initExperienceKV 0) ∧
      kvKeys (initExperienceKV 0) = experienceKeysJS) ∧
    (processItemP0 "u" ⟨false, 0, false, none, false, [], false, []⟩
        = some ⟨"u", "", "", "", "", "null", "null"⟩ ∧
      kvKeys (experienceP0KV ⟨"u", "", "", "", "", "null", "null"⟩)
        = ["Profil", "Titre du poste", "Entreprise et type d\x27emploi",
           "Dates et durée", "Lieu", "Description", "Compétences"]) ∧
    (processItemEdu "u" ⟨false, none, false, []⟩ = some ⟨"u", "", "", ""⟩ ∧
      kvKeys (educationP0KV ⟨"u", "", "", ""⟩)
        = ["Profil", "Établissement", "Diplôme", "Durée"]) :=
  ⟨⟨rfl, records_keep_all_keys.1 0 ⟨true, 0, false, none, false, [], false, []⟩
      (initExperienceKV 0) rfl⟩,
   ⟨rfl, records_keep_all_keys.2.1 "u" ⟨false, 0, false, none, false, [], false, []⟩
      ⟨"u", "", "", "", "", "null", "null"⟩ rfl⟩,
   ⟨rfl, records_keep_all_keys.2.2 "u" ⟨false, none, false, []⟩ ⟨"u", "", "", ""⟩ rfl⟩⟩

/-! ### Claim about the empty-fragment filter (C10) -/

/-- Claim C10: in the `scraper.js` variant every fragment handed to the
positional decompositions is non-empty — an element whose trimmed text is
empty is dropped before decomposition, shifting the fragments after it one
position up, and the per-item processing is unchanged by such an
element. -/
theorem empty_fragments_filtered_before_decomposition :
    (∀ raw : List String, ∀ t ∈ filterTexts raw, t ≠ "") ∧
    (∀ (raw : List String) (a : String), jsTrim a = "" →
       filterTexts (a :: raw) = filterTexts raw) ∧
    (∀ (raw : List String) (a : String), jsTrim a ≠ "" →
       filterTexts (a :: raw) = jsTrim a :: filterTexts raw) ∧
    (∀ (idx : Nat) (it : ItemJS) (a : String), jsTrim a = "" →
       processItem idx { it with detailTexts := a :: it.detailTexts }
         = processItem idx it) ∧
    (∀ (idx : Nat) (it : ItemJS) (a : String), jsTrim a = "" →
       processItem idx { it with skillDescTexts := a :: it.skillDescTexts }
         = processItem idx it) := by
  have hmem : ∀ raw : List String, ∀ t ∈ filterTexts raw, t ≠ "" := by
    intro raw t ht
    simp only [filterTexts, List.mem_filter, decide_eq_true_eq] at ht
    exact ht.2
  have hcons0 : ∀ (raw : List String) (a : String), jsTrim a = "" →
      filterTexts (a :: raw) = filterTexts raw := by
    intro raw a h
    simp [filterTexts, h]
  have hcons1 : ∀ (raw : List String) (a : String), jsTrim a ≠ "" →
      filterTexts (a :: raw) = jsTrim a :: filterTexts raw := by
    intro raw a h
    simp [filterTexts, h]
  refine ⟨hmem, hcons0, hcons1, ?_, ?_⟩
  · intro idx it a h
    simp [processItem, roleStep, detailsStep, skillsStep, hcons0 it.detailTexts a h]
  · intro idx it a h
    simp [processItem, roleStep, detailsStep, skillsStep, hcons0 it.skillDescTexts a h]

/-- Witness for C10: an all-whitespace detail element leaves the produced
record unchanged, shifting the non-empty fragments up. -/
theorem empty_fragments_filtered_witness :
    (jsTrim " " = "" ∧ filterTexts [" ", "x"] = filterTexts ["x"]) ∧
    (jsTrim "x" ≠ "" ∧ filterTexts ["x", ""] = jsTrim "x" :: filterTexts [""]) ∧
    ("desc" ∈ filterTexts ["desc", ""] ∧ "desc" ≠ "") ∧
    (processItem 0 ⟨false, 0, false, none, false, " " :: ["Acme"], false, []⟩
       = processItem 0 ⟨false, 0, false, none, false, ["Acme"], false, []⟩) ∧
    (processItem 0 ⟨false, 0, false, none, false, [], false, " " :: ["S"]⟩
       = processItem 0 ⟨false, 0, false, none, false, [], false, ["S"]⟩) :=
  ⟨⟨by decide,
    empty_fragments_filtered_before_decomposition.2.1 ["x"] " " (by decide)⟩,
   ⟨by decide,
    empty_fragments_filtered_before_decomposition.2.2.1 [""] "x" (by decide)⟩,
   ⟨by decide,
    empty_fragments_filtered_before_decomposition.1 ["desc", ""] "desc" (by decide)⟩,
   empty_fragments_filtered_before_decomposition.2.2.2.1 0
     ⟨false, 0, false, none, false, ["Acme"], false, []⟩ " " (by decide),
   empty_fragments_filtered_before_decomposition.2.2.2.2 0
     ⟨false, 0, false, none, false, [], false, ["S"]⟩ " " (by decide)⟩
